import Mathlib

/-!
Verification of the PolicyMVP ingestion and search pipeline.

This file gives a shallow embedding, in Lean 4, of the algorithmic core of
the repository (cursor pagination, document validation, dedup and batching,
date normalization, identifier parsing, query-body construction, hit shaping
and id assignment), translated definition by definition from the Python
source, and proves the frozen specification claims about it.

Conventions used throughout:
- A Python str is modelled as a Lean String; indexing, length and slicing
  are over code points, which matches CPython semantics.
- A possibly-absent dict entry is an Option String; Python truthiness of a
  string field (None and the empty string are falsy) is the function pyFalsy.
- Python exceptions raised by the modelled code are Except values.
- The while-True pagination loop is modelled with an explicit fuel
  parameter; termination of the Python loop is stated as stabilization of
  the fuel-indexed run.
-/

namespace PolicyMVP

/-! ## Python string primitives

Lean kernel reduction gets stuck on some String library functions, so the
few primitives the embedding needs are defined here over the code-point
list of the string, with exactly the CPython semantics of
str.split(sep), str.endswith and slicing. -/

/-- CPython str.split with a one-character separator, over code points:
splitChars sep cs cur accumulates the current (reversed) piece. -/
def splitChars (sep : Char) : List Char → List Char → List (List Char)
  | [], cur => [cur.reverse]
  | c :: rest, cur =>
    if c = sep then cur.reverse :: splitChars sep rest []
    else splitChars sep rest (c :: cur)

/-- CPython s.split(sep) for a one-character separator. -/
def pySplit (sep : Char) (s : String) : List String :=
  (splitChars sep s.data []).map String.mk

/-- CPython s.endswith(suffix). -/
def pyEndsWith (s suffix : String) : Bool :=
  suffix.data.isSuffixOf s.data

/-- Python truthiness of an optional string: None and the empty string are
falsy, every other string is truthy. -/
def pyFalsy : Option String → Bool
  | none => true
  | some s => s = ""

/-! ## DIP cursor pagination (src/app/datasources/bundestag_dip.py)

DIPClient._paginate_cursor issues GET requests in a while-True loop.  Each
response is modelled by DipPage: its HTTP status, the extracted document
list (documents are opaque tokens) and the optional cursor field of the
JSON payload.  resp.raise_for_status() raises for any status of at least
400; the requests.Session used by the client has no retry adapter mounted,
so one loop iteration performs exactly one HTTP request.

The page oracle pages : Nat -> DipPage gives the response to the n-th HTTP
request the loop would make.  dipLoop carries the fuel, the index of the
next request, the prev_cursor variable and the documents already yielded;
paginate_cursor starts it in the initial state of the Python function
(prev_cursor = None, no cursor parameter sent). -/

/-- One HTTP page response as _paginate_cursor sees it. -/
structure DipPage where
  status : Nat
  docs : List Nat
  cursor : Option String

/-- How a fuel-bounded run of the pagination loop ended. -/
inductive DipOutcome where
  | completed
  | fetchError (status : Nat)
  | outOfFuel
  deriving DecidableEq

/-- Observable result of a fuel-bounded run: documents yielded, number of
HTTP requests issued, and how the loop ended. -/
structure DipRun where
  docs : List Nat
  requests : Nat
  outcome : DipOutcome
  deriving DecidableEq

/-- The body of the while-True loop of DIPClient._paginate_cursor.
Request i is answered by pages i; raise_for_status aborts on status >= 400;
otherwise the documents of the page are yielded and the loop stops when the
cursor field is falsy or equal to prev_cursor, else continues with the new
cursor. -/
def dipLoop (pages : Nat → DipPage) : Nat → Nat → Option String → List Nat → DipRun
  | 0, i, _, acc => ⟨acc, i, .outOfFuel⟩
  | fuel + 1, i, prev, acc =>
    if 400 ≤ (pages i).status then ⟨acc, i + 1, .fetchError (pages i).status⟩
    else if pyFalsy (pages i).cursor || ((pages i).cursor == prev) then
      ⟨acc ++ (pages i).docs, i + 1, .completed⟩
    else dipLoop pages fuel (i + 1) (pages i).cursor (acc ++ (pages i).docs)

/-- DIPClient._paginate_cursor, run with the given fuel. -/
def paginate_cursor (pages : Nat → DipPage) (fuel : Nat) : DipRun :=
  dipLoop pages fuel 0 none []

/-- The stop condition of the spec at page k: page k returns no cursor (or
an empty one), or page k + 1 echoes exactly the cursor page k returned. -/
def stopsAt (pages : Nat → DipPage) (k : Nat) : Prop :=
  (pages k).cursor = none ∨ (pages k).cursor = some "" ∨
    (pages (k + 1)).cursor = (pages k).cursor

/-- Each loop iteration issues exactly one request, so a fuel-bounded run
issues at most fuel requests beyond the start index. -/
theorem dipLoop_requests_le (pages : Nat → DipPage) :
    ∀ fuel i prev acc, (dipLoop pages fuel i prev acc).requests ≤ i + fuel := by
  intro fuel
  induction fuel with
  | zero => intro i prev acc; simp [dipLoop]
  | succ n ih =>
    intro i prev acc
    simp only [dipLoop]
    by_cases h1 : 400 ≤ (pages i).status
    · rw [if_pos h1]
      show i + 1 ≤ i + (n + 1)
      omega
    · rw [if_neg h1]
      by_cases h2 : (pyFalsy (pages i).cursor || ((pages i).cursor == prev)) = true
      · rw [if_pos h2]
        show i + 1 ≤ i + (n + 1)
        omega
      · rw [if_neg h2]
        have := ih (i + 1) (pages i).cursor (acc ++ (pages i).docs)
        omega

/-- A run that ended (did not run out of fuel) is unchanged by extra fuel:
the loop makes no further requests once it has stopped. -/
theorem dipLoop_stable (pages : Nat → DipPage) :
    ∀ fuel i prev acc, (dipLoop pages fuel i prev acc).outcome ≠ DipOutcome.outOfFuel →
      ∀ m, dipLoop pages (fuel + m) i prev acc = dipLoop pages fuel i prev acc := by
  intro fuel
  induction fuel with
  | zero => intro i prev acc h; simp [dipLoop] at h
  | succ n ih =>
    intro i prev acc h m
    have e : n + 1 + m = (n + m) + 1 := by omega
    rw [e]
    simp only [dipLoop] at h ⊢
    by_cases h1 : 400 ≤ (pages i).status
    · rw [if_pos h1]; rw [if_pos h1]
    · rw [if_neg h1]; rw [if_neg h1]
      rw [if_neg h1] at h
      by_cases h2 : (pyFalsy (pages i).cursor || ((pages i).cursor == prev)) = true
      · rw [if_pos h2]; rw [if_pos h2]
      · rw [if_neg h2]; rw [if_neg h2]
        rw [if_neg h2] at h
        exact ih (i + 1) (pages i).cursor (acc ++ (pages i).docs) h m

/-- If the stop condition of the spec holds at the page k positions after
the start index, the loop halts within k + 2 iterations. -/
theorem dipLoop_halts (pages : Nat → DipPage) :
    ∀ k i prev acc,
      ((pages (i + k)).cursor = none ∨ (pages (i + k)).cursor = some "" ∨
        (pages (i + k + 1)).cursor = (pages (i + k)).cursor) →
      (dipLoop pages (k + 2) i prev acc).outcome ≠ DipOutcome.outOfFuel := by
  intro k
  induction k with
  | zero =>
    intro i prev acc h
    simp only [Nat.add_zero] at h
    show (dipLoop pages (1 + 1) i prev acc).outcome ≠ DipOutcome.outOfFuel
    simp only [dipLoop]
    by_cases h1 : 400 ≤ (pages i).status
    · rw [if_pos h1]
      exact fun hcon => DipOutcome.noConfusion hcon
    · rw [if_neg h1]
      by_cases h2 : (pyFalsy (pages i).cursor || ((pages i).cursor == prev)) = true
      · rw [if_pos h2]
        exact fun hcon => DipOutcome.noConfusion hcon
      · rw [if_neg h2]
        have hfal : pyFalsy (pages i).cursor = false := by
          cases hc : pyFalsy (pages i).cursor
          · rfl
          · simp [hc] at h2
        have hecho : (pages (i + 1)).cursor = (pages i).cursor := by
          rcases h with h | h | h
          · rw [h] at hfal; simp [pyFalsy] at hfal
          · rw [h] at hfal; simp [pyFalsy] at hfal
          · exact h
        show (dipLoop pages (0 + 1) (i + 1) (pages i).cursor
            (acc ++ (pages i).docs)).outcome ≠ DipOutcome.outOfFuel
        simp only [dipLoop]
        by_cases h3 : 400 ≤ (pages (i + 1)).status
        · rw [if_pos h3]
          exact fun hcon => DipOutcome.noConfusion hcon
        · rw [if_neg h3]
          have h4 : (pyFalsy (pages (i + 1)).cursor ||
              ((pages (i + 1)).cursor == (pages i).cursor)) = true := by
            rw [hecho]; simp
          rw [if_pos h4]
          exact fun hcon => DipOutcome.noConfusion hcon
  | succ n ih =>
    intro i prev acc h
    show (dipLoop pages ((n + 2) + 1) i prev acc).outcome ≠ DipOutcome.outOfFuel
    simp only [dipLoop]
    by_cases h1 : 400 ≤ (pages i).status
    · rw [if_pos h1]
      exact fun hcon => DipOutcome.noConfusion hcon
    · rw [if_neg h1]
      by_cases h2 : (pyFalsy (pages i).cursor || ((pages i).cursor == prev)) = true
      · rw [if_pos h2]
        exact fun hcon => DipOutcome.noConfusion hcon
      · rw [if_neg h2]
        apply ih (i + 1)
        have e : i + 1 + n = i + (n + 1) := by omega
        rw [e]
        exact h

/-- C1: cursor pagination terminates.  If some page in the response
sequence returns no cursor (or an empty one), or the following page echoes
a cursor textually identical to it, then the page-item generator of
DIPClient._paginate_cursor stops: a run with fuel k + 2 does not run out
of fuel, it issues at most k + 2 requests, and giving the loop any larger
fuel changes nothing — no further pages are requested and no further items
are yielded. -/
theorem paginate_cursor_terminates (pages : Nat → DipPage) (k : Nat) (h : stopsAt pages k) :
    (paginate_cursor pages (k + 2)).outcome ≠ DipOutcome.outOfFuel ∧
    (paginate_cursor pages (k + 2)).requests ≤ k + 2 ∧
    ∀ fuel, k + 2 ≤ fuel → paginate_cursor pages fuel = paginate_cursor pages (k + 2) := by
  have hh : (dipLoop pages (k + 2) 0 none []).outcome ≠ DipOutcome.outOfFuel := by
    apply dipLoop_halts pages k 0 none []
    simpa [stopsAt] using h
  refine ⟨hh, ?_, ?_⟩
  · have := dipLoop_requests_le pages (k + 2) 0 none []
    simpa [paginate_cursor] using this
  · intro fuel hf
    obtain ⟨m, rfl⟩ : ∃ m, fuel = (k + 2) + m := ⟨fuel - (k + 2), by omega⟩
    exact dipLoop_stable pages (k + 2) 0 none [] hh m

/-- A response sequence in which every page echoes the same cursor token. -/
def dipPagesEcho : Nat → DipPage := fun n => ⟨200, [n], some "tok"⟩

/-- Witness for C1 at a concrete response sequence: page 1 echoes the
cursor of page 0, the run halts after two requests having yielded the two
pages, and the theorem applies. -/
theorem paginate_cursor_terminates_witness :
    stopsAt dipPagesEcho 0 ∧
    (paginate_cursor dipPagesEcho 2).outcome ≠ DipOutcome.outOfFuel ∧
    paginate_cursor dipPagesEcho 2 = ⟨[0, 1], 2, DipOutcome.completed⟩ := by
  have hs : stopsAt dipPagesEcho 0 := Or.inr (Or.inr rfl)
  exact ⟨hs, (paginate_cursor_terminates dipPagesEcho 0 hs).1, by decide⟩

/-- A response sequence that always fails with HTTP 429 (a transient
status in the sense of the spec). -/
def dipPages429 : Nat → DipPage := fun _ => ⟨429, [], none⟩

/-- C7 counterexample: _paginate_cursor performs no retry at all.  With
every response a transient HTTP 429 and plenty of fuel available, the run
surfaces the fetch error after exactly one HTTP request — the request is
not retried, and no backoff of any kind happens, contradicting the claimed
bounded exponential backoff with jitter up to an attempt ceiling. -/
theorem paginate_no_retry_counterexample :
    paginate_cursor dipPages429 10 = ⟨[], 1, DipOutcome.fetchError 429⟩ := by decide

/-- C7 amended: a transient failure of a page request aborts immediately.
Whenever the loop issues request i and the response status is at least 400,
raise_for_status surfaces the error after exactly that one request (no
retry, no backoff), and the items already yielded from earlier pages are
returned unchanged, so already-consumed state is not corrupted. -/
theorem dipLoop_error_surfaces_immediately (pages : Nat → DipPage) (fuel i : Nat)
    (prev : Option String) (acc : List Nat) (h : 400 ≤ (pages i).status) :
    dipLoop pages (fuel + 1) i prev acc = ⟨acc, i + 1, DipOutcome.fetchError (pages i).status⟩ := by
  simp only [dipLoop]
  rw [if_pos h]

/-- Witness for the amended C7: on the all-429 sequence, starting with
items [7] already consumed, the error is surfaced after one request with
the consumed items intact. -/
theorem dipLoop_error_surfaces_immediately_witness :
    dipLoop dipPages429 10 0 none [7] = ⟨[7], 1, DipOutcome.fetchError 429⟩ := by
  have h := dipLoop_error_surfaces_immediately dipPages429 9 0 none [7] (by decide)
  exact h.trans (by decide)

/-! ## Ingestion service (src/app/services/ingestion_service.py)

A document dict is modelled by PyDoc; every field the service reads is an
Option String (absent key = none).  The metadata sub-dict is collapsed to
its only key, document_type, which the service never reads.

validate_doc_shape copies the dict, defaults language to "de" and
ingested_at to datetime.utcnow().isoformat() + "Z" (the utcnow text is the
parameter now), then raises ValueError listing the required fields among
source, url, content that are falsy; the Except error value carries that
list.

run_and_index folds validate_doc_shape over the stream, deduplicates on
clean.get("id") or clean.get("url") against the run-scoped seen_ids set,
appends to the batch, and flushes the batch to index_documents when
len(batch) >= batch_size, plus a final partial flush.  The RunResult
records every batch handed to index_documents, in order (the store is
modelled as accepting every submitted document, so the success count of a
flush is the batch length), and the outcome: the indexed total, or the
ValueError that aborted the run.  A raised ValueError propagates — there
is no try/except around validate_doc_shape in the source. -/

/-- A document dict as the ingestion service sees it. -/
structure PyDoc where
  id : Option String := none
  title : Option String := none
  source : Option String := none
  source_name : Option String := none
  publication_date : Option String := none
  url : Option String := none
  content : Option String := none
  language : Option String := none
  ingested_at : Option String := none
  metadata_document_type : Option String := none
  deriving DecidableEq, Inhabited

/-- Field access by name, for the required-field scan of
validate_doc_shape. -/
def getField (d : PyDoc) : String → Option String
  | "source" => d.source
  | "url" => d.url
  | "content" => d.content
  | _ => none

/-- The list literal of required field names in the source. -/
def requiredFields : List String := ["source", "url", "content"]

/-- The two setdefault calls of validate_doc_shape, applied to the copy of
the incoming dict. -/
def applyDefaults (d : PyDoc) (now : String) : PyDoc :=
  { d with
    language := match d.language with
      | none => some "de"
      | some v => some v
    ingested_at := match d.ingested_at with
      | none => some (now ++ "Z")
      | some v => some v }

/-- The missing-required-fields list computed by validate_doc_shape. -/
def missingOf (d : PyDoc) : List String :=
  requiredFields.filter (fun k => pyFalsy (getField d k))

/-- validate_doc_shape: defaults, then raise ValueError carrying the list
of missing required fields when any of source, url, content is falsy. -/
def validate_doc_shape (now : String) (d : PyDoc) : Except (List String) PyDoc :=
  let out := applyDefaults d now
  let missing := missingOf out
  if missing.isEmpty then .ok out else .error missing

/-- The dedup identifier of a validated document:
clean.get("id") or clean.get("url"). -/
def docKey (d : PyDoc) : Option String :=
  if pyFalsy d.id then d.url else d.id

deriving instance DecidableEq for Except

/-- Result of one run_and_index call: the batches handed to
index_documents in order, and the outcome (total successes, or the
ValueError payload that aborted the run). -/
structure RunResult where
  batches : List (List PyDoc)
  outcome : Except (List String) Nat
  deriving DecidableEq

/-- The document loop of run_and_index.  State: remaining stream, current
batch, seen_ids, batches already flushed, running success total. -/
def runLoop (now : String) (batchSize : Nat) :
    List PyDoc → List PyDoc → List String → List (List PyDoc) → Nat → RunResult
  | [], batch, _, acc, total =>
    if batch.isEmpty then ⟨acc, .ok total⟩
    else ⟨acc ++ [batch], .ok (total + batch.length)⟩
  | d :: rest, batch, seen, acc, total =>
    match validate_doc_shape now d with
    | .error m => ⟨acc, .error m⟩
    | .ok clean =>
      let key := docKey clean
      let keyTruthy := !(pyFalsy key)
      let keyStr := key.getD ""
      if keyTruthy && seen.contains keyStr then
        runLoop now batchSize rest batch seen acc total
      else
        let seen' := if keyTruthy then keyStr :: seen else seen
        let batch' := batch ++ [clean]
        if batchSize ≤ batch'.length then
          runLoop now batchSize rest [] seen' (acc ++ [batch']) (total + batch'.length)
        else
          runLoop now batchSize rest batch' seen' acc total

/-- run_and_index on a finite stream. -/
def run_and_index (docs : List PyDoc) (batchSize : Nat) (now : String) : RunResult :=
  runLoop now batchSize docs [] [] [] 0

/-- The defaults step touches only language and ingested_at, so the
missing-field scan is unaffected by it. -/
theorem missingOf_applyDefaults (d : PyDoc) (now : String) :
    missingOf (applyDefaults d now) = missingOf d := rfl

/-- validate_doc_shape, written as one conditional on the missing list of
the incoming document. -/
theorem validate_doc_shape_eq (d : PyDoc) (now : String) :
    validate_doc_shape now d =
      if (missingOf d).isEmpty then .ok (applyDefaults d now) else .error (missingOf d) := rfl

/-- The dedup identifier ignores the defaulted fields. -/
theorem docKey_applyDefaults (d : PyDoc) (now : String) :
    docKey (applyDefaults d now) = docKey d := rfl

/-- All required fields of a document, by truthiness of each. -/
def validShape (x : PyDoc) : Prop :=
  pyFalsy x.source = false ∧ pyFalsy x.url = false ∧ pyFalsy x.content = false

instance (x : PyDoc) : Decidable (validShape x) := by
  unfold validShape
  infer_instance

/-- The missing list is empty exactly when all three required fields are
truthy. -/
theorem missingOf_eq_nil_iff (d : PyDoc) : missingOf d = [] ↔ validShape d := by
  cases hs : pyFalsy d.source <;> cases hu : pyFalsy d.url <;> cases hc : pyFalsy d.content <;>
    simp [missingOf, requiredFields, getField, List.filter, hs, hu, hc, validShape]

/-- A successful validation returns exactly the defaulted copy of a
document whose required fields are all truthy. -/
theorem validate_ok_iff (d : PyDoc) (now : String) (c : PyDoc) :
    validate_doc_shape now d = .ok c ↔ validShape d ∧ c = applyDefaults d now := by
  rw [validate_doc_shape_eq]
  by_cases he : (missingOf d).isEmpty
  · rw [if_pos he]
    rw [List.isEmpty_iff] at he
    rw [missingOf_eq_nil_iff] at he
    constructor
    · intro h
      injection h with h
      exact ⟨he, h.symm⟩
    · intro ⟨_, h⟩
      rw [h]
  · rw [if_neg he]
    rw [List.isEmpty_iff] at he
    constructor
    · intro h
      exact Except.noConfusion h
    · intro ⟨hv, _⟩
      exact absurd ((missingOf_eq_nil_iff d).mpr hv) he

/-- A validated document has all three required fields truthy. -/
theorem validate_ok_validShape (d : PyDoc) (now : String) (c : PyDoc)
    (h : validate_doc_shape now d = .ok c) : validShape c := by
  obtain ⟨hv, rfl⟩ := (validate_ok_iff d now c).mp h
  exact hv

/-- Invariant of the run loop: if every document already buffered or
flushed has a valid shape, so does every document of every batch the loop
ever hands to index_documents. -/
theorem runLoop_batches_validShape (now : String) (batchSize : Nat) :
    ∀ docs batch seen acc total,
      (∀ x ∈ batch, validShape x) →
      (∀ b ∈ acc, ∀ x ∈ b, validShape x) →
      ∀ b ∈ (runLoop now batchSize docs batch seen acc total).batches, ∀ x ∈ b, validShape x := by
  intro docs
  induction docs with
  | nil =>
    intro batch seen acc total hb hacc b hbm x hx
    by_cases he : batch.isEmpty
    · simp only [runLoop, if_pos he] at hbm
      exact hacc b hbm x hx
    · simp only [runLoop, if_neg he] at hbm
      rcases List.mem_append.mp hbm with h | h
      · exact hacc b h x hx
      · rw [List.mem_singleton.mp h] at hx
        exact hb x hx
  | cons d rest ih =>
    intro batch seen acc total hb hacc b hbm x hx
    simp only [runLoop] at hbm
    cases hv : validate_doc_shape now d with
    | error m =>
      rw [hv] at hbm
      exact hacc b hbm x hx
    | ok clean =>
      rw [hv] at hbm
      dsimp only at hbm
      have hclean : validShape clean := validate_ok_validShape d now clean hv
      by_cases hdup : (!(pyFalsy (docKey clean)) && seen.contains ((docKey clean).getD "")) = true
      · rw [if_pos hdup] at hbm
        exact ih batch seen acc total hb hacc b hbm x hx
      · rw [if_neg hdup] at hbm
        have hb' : ∀ y ∈ batch ++ [clean], validShape y := by
          intro y hy
          rcases List.mem_append.mp hy with h | h
          · exact hb y h
          · rw [List.mem_singleton.mp h]
            exact hclean
        by_cases hfl : batchSize ≤ (batch ++ [clean]).length
        · rw [if_pos hfl] at hbm
          have hacc' : ∀ b0 ∈ acc ++ [batch ++ [clean]], ∀ y ∈ b0, validShape y := by
            intro b0 hb0 y hy
            rcases List.mem_append.mp hb0 with h | h
            · exact hacc b0 h y hy
            · rw [List.mem_singleton.mp h] at hy
              exact hb' y hy
          exact ih [] _ _ _ (by intro y hy; cases hy) hacc' b hbm x hx
        · rw [if_neg hfl] at hbm
          exact ih _ _ _ _ hb' hacc b hbm x hx

/-- C3: required-field rejection.  A document with any of source, url,
content falsy after the defaults step is rejected by validate_doc_shape
with exactly the list of its missing field names (a nonempty sublist of
[source, url, content] in that order); no document with a falsy required
field ever appears in a batch submitted to the store; and a document with
all three fields truthy is not rejected. -/
theorem required_field_rejection (d : PyDoc) (now : String) :
    ((pyFalsy d.source = true ∨ pyFalsy d.url = true ∨ pyFalsy d.content = true) →
      validate_doc_shape now d = .error (missingOf d) ∧ missingOf d ≠ [])
    ∧ (validShape d → validate_doc_shape now d = .ok (applyDefaults d now))
    ∧ (∀ docs batchSize, ∀ b ∈ (run_and_index docs batchSize now).batches, ∀ x ∈ b,
        pyFalsy x.source = false ∧ pyFalsy x.url = false ∧ pyFalsy x.content = false) := by
  refine ⟨?_, ?_, ?_⟩
  · intro h
    have hne : missingOf d ≠ [] := by
      intro he
      rcases (missingOf_eq_nil_iff d).mp he with ⟨hs, hu, hc⟩
      rcases h with h | h | h <;> simp_all
    refine ⟨?_, hne⟩
    rw [validate_doc_shape_eq, if_neg ?_]
    intro he
    exact hne (List.isEmpty_iff.mp he)
  · intro hv
    exact (validate_ok_iff d now (applyDefaults d now)).mpr ⟨hv, rfl⟩
  · intro docs batchSize b hbm x hx
    exact runLoop_batches_validShape now batchSize docs [] [] [] 0
      (by intro y hy; cases hy) (by intro b0 hb0; cases hb0) b hbm x hx

/-- Witness for C3 at concrete documents: a document with empty content is
rejected with exactly [content] as its missing list, and a complete
document passes validation. -/
theorem required_field_rejection_witness :
    validate_doc_shape "T" { source := some "s", url := some "u", content := some "" } =
      .error ["content"] ∧
    validate_doc_shape "T" { source := some "s", url := some "u", content := some "c" } =
      .ok { source := some "s", url := some "u", content := some "c",
            language := some "de", ingested_at := some "TZ" } := by
  constructor
  · have h := (required_field_rejection
      { source := some "s", url := some "u", content := some "" } "T").1
      (Or.inr (Or.inr (by decide)))
    exact h.1.trans (by decide)
  · have h := (required_field_rejection
      { source := some "s", url := some "u", content := some "c" } "T").2.1 (by decide)
    exact h.trans (by decide)

/-- C2 counterexample: a validation failure is NOT recovered locally.
run_and_index has no try/except around validate_doc_shape, so on a stream
whose first document is missing all required fields and whose second
document is fully valid, the raised ValueError aborts the run: no batch is
ever submitted, the valid later document is not indexed, and nothing is
counted — the outcome is the propagated error, not a summary with a drop
count. -/
theorem validation_aborts_run_counterexample :
    run_and_index
      [({} : PyDoc), { source := some "s", url := some "u", content := some "c" }] 500 "T" =
      ⟨[], Except.error ["source", "url", "content"]⟩ := by decide

/-- One step of the run loop: a validation failure aborts with the
propagated error and only the batches already flushed. -/
theorem runLoop_cons_error (now : String) (bs : Nat) (d : PyDoc) (rest batch : List PyDoc)
    (seen : List String) (acc : List (List PyDoc)) (total : Nat) (m : List String)
    (hv : validate_doc_shape now d = .error m) :
    runLoop now bs (d :: rest) batch seen acc total = ⟨acc, .error m⟩ := by
  simp only [runLoop, hv]

/-- One step of the run loop: a document whose identifier is already in
seen_ids is skipped. -/
theorem runLoop_cons_dup (now : String) (bs : Nat) (d : PyDoc) (rest batch : List PyDoc)
    (seen : List String) (acc : List (List PyDoc)) (total : Nat) (clean : PyDoc)
    (hv : validate_doc_shape now d = .ok clean)
    (hdup : (!(pyFalsy (docKey clean)) && seen.contains ((docKey clean).getD "")) = true) :
    runLoop now bs (d :: rest) batch seen acc total =
      runLoop now bs rest batch seen acc total := by
  simp only [runLoop, hv]
  rw [if_pos hdup]

/-- One step of the run loop: a fresh document that fills the batch causes
a flush. -/
theorem runLoop_cons_flush (now : String) (bs : Nat) (d : PyDoc) (rest batch : List PyDoc)
    (seen : List String) (acc : List (List PyDoc)) (total : Nat) (clean : PyDoc)
    (hv : validate_doc_shape now d = .ok clean)
    (hdup : ¬(!(pyFalsy (docKey clean)) && seen.contains ((docKey clean).getD "")) = true)
    (hfl : bs ≤ (batch ++ [clean]).length) :
    runLoop now bs (d :: rest) batch seen acc total =
      runLoop now bs rest []
        (if (!(pyFalsy (docKey clean))) = true then (docKey clean).getD "" :: seen else seen)
        (acc ++ [batch ++ [clean]]) (total + (batch ++ [clean]).length) := by
  simp only [runLoop, hv]
  rw [if_neg hdup, if_pos hfl]

/-- One step of the run loop: a fresh document that does not fill the
batch is appended. -/
theorem runLoop_cons_push (now : String) (bs : Nat) (d : PyDoc) (rest batch : List PyDoc)
    (seen : List String) (acc : List (List PyDoc)) (total : Nat) (clean : PyDoc)
    (hv : validate_doc_shape now d = .ok clean)
    (hdup : ¬(!(pyFalsy (docKey clean)) && seen.contains ((docKey clean).getD "")) = true)
    (hfl : ¬ bs ≤ (batch ++ [clean]).length) :
    runLoop now bs (d :: rest) batch seen acc total =
      runLoop now bs rest (batch ++ [clean])
        (if (!(pyFalsy (docKey clean))) = true then (docKey clean).getD "" :: seen else seen)
        acc total := by
  simp only [runLoop, hv]
  rw [if_neg hdup, if_neg hfl]

/-- End of the stream: the final partial batch, when nonempty, is flushed. -/
theorem runLoop_nil (now : String) (bs : Nat) (batch : List PyDoc)
    (seen : List String) (acc : List (List PyDoc)) (total : Nat) :
    runLoop now bs [] batch seen acc total =
      if batch.isEmpty then ⟨acc, .ok total⟩
      else ⟨acc ++ [batch], .ok (total + batch.length)⟩ := rfl

/-- Helper for the amended C2: processing a stream whose prefix validates
and whose next document fails validation ends with the propagated error,
and every document in a submitted batch originates from the already
buffered state or from the validated prefix. -/
theorem runLoop_error_mid (now : String) (batchSize : Nat) (d : PyDoc) (m : List String)
    (rest : List PyDoc) (hd : validate_doc_shape now d = .error m) :
    ∀ pre batch seen acc total,
      (∀ p ∈ pre, (validate_doc_shape now p).isOk = true) →
      (runLoop now batchSize (pre ++ d :: rest) batch seen acc total).outcome = .error m ∧
      ∀ b ∈ (runLoop now batchSize (pre ++ d :: rest) batch seen acc total).batches, ∀ x ∈ b,
        (∃ b0 ∈ acc, x ∈ b0) ∨ x ∈ batch ∨ ∃ p ∈ pre, x = applyDefaults p now := by
  intro pre
  induction pre with
  | nil =>
    intro batch seen acc total _
    rw [List.nil_append, runLoop_cons_error now batchSize d rest batch seen acc total m hd]
    exact ⟨rfl, fun b hb x hx => Or.inl ⟨b, hb, hx⟩⟩
  | cons p pre' ih =>
    intro batch seen acc total hpre
    have hpok : (validate_doc_shape now p).isOk = true := hpre p (List.mem_cons_self p pre')
    have hpre' : ∀ q ∈ pre', (validate_doc_shape now q).isOk = true :=
      fun q hq => hpre q (List.mem_cons_of_mem p hq)
    obtain ⟨clean, hv⟩ : ∃ c, validate_doc_shape now p = .ok c := by
      cases hvp : validate_doc_shape now p with
      | error e => rw [hvp] at hpok; exact Bool.noConfusion hpok
      | ok c => exact ⟨c, rfl⟩
    have hcdef : clean = applyDefaults p now := ((validate_ok_iff p now clean).mp hv).2
    rw [List.cons_append]
    by_cases hdup : (!(pyFalsy (docKey clean)) && seen.contains ((docKey clean).getD "")) = true
    · rw [runLoop_cons_dup now batchSize p _ batch seen acc total clean hv hdup]
      obtain ⟨h1, h2⟩ := ih batch seen acc total hpre'
      refine ⟨h1, fun b hb x hx => ?_⟩
      rcases h2 b hb x hx with h | h | ⟨q, hq, he⟩
      · exact Or.inl h
      · exact Or.inr (Or.inl h)
      · exact Or.inr (Or.inr ⟨q, List.mem_cons_of_mem p hq, he⟩)
    · by_cases hfl : batchSize ≤ (batch ++ [clean]).length
      · rw [runLoop_cons_flush now batchSize p _ batch seen acc total clean hv hdup hfl]
        obtain ⟨h1, h2⟩ := ih [] _ (acc ++ [batch ++ [clean]]) _ hpre'
        refine ⟨h1, fun b hb x hx => ?_⟩
        rcases h2 b hb x hx with ⟨b0, hb0, hxb0⟩ | h | ⟨q, hq, he⟩
        · rcases List.mem_append.mp hb0 with h0 | h0
          · exact Or.inl ⟨b0, h0, hxb0⟩
          · rw [List.mem_singleton.mp h0] at hxb0
            rcases List.mem_append.mp hxb0 with h1' | h1'
            · exact Or.inr (Or.inl h1')
            · rw [List.mem_singleton.mp h1', hcdef]
              exact Or.inr (Or.inr ⟨p, List.mem_cons_self p pre', rfl⟩)
        · cases h
        · exact Or.inr (Or.inr ⟨q, List.mem_cons_of_mem p hq, he⟩)
      · rw [runLoop_cons_push now batchSize p _ batch seen acc total clean hv hdup hfl]
        obtain ⟨h1, h2⟩ := ih (batch ++ [clean]) _ acc _ hpre'
        refine ⟨h1, fun b hb x hx => ?_⟩
        rcases h2 b hb x hx with h | h | ⟨q, hq, he⟩
        · exact Or.inl h
        · rcases List.mem_append.mp h with h' | h'
          · exact Or.inr (Or.inl h')
          · rw [List.mem_singleton.mp h', hcdef]
            exact Or.inr (Or.inr ⟨p, List.mem_cons_self p pre', rfl⟩)
        · exact Or.inr (Or.inr ⟨q, List.mem_cons_of_mem p hq, he⟩)

/-- C2 amended: validation failures are NOT recovered locally.  For every
stream consisting of a prefix of valid documents, then a document failing
required-field validation, then anything, run_and_index propagates the
validation error (the run aborts; later documents are never processed, and
no drop count is produced), and every document of every batch that was
submitted before the abort comes from the valid prefix. -/
theorem validation_error_aborts_run (pre : List PyDoc) (d : PyDoc) (rest : List PyDoc)
    (batchSize : Nat) (now : String) (m : List String)
    (hpre : ∀ p ∈ pre, (validate_doc_shape now p).isOk = true)
    (hd : validate_doc_shape now d = .error m) :
    (run_and_index (pre ++ d :: rest) batchSize now).outcome = .error m ∧
    ∀ b ∈ (run_and_index (pre ++ d :: rest) batchSize now).batches, ∀ x ∈ b,
      ∃ p ∈ pre, x = applyDefaults p now := by
  obtain ⟨h1, h2⟩ := runLoop_error_mid now batchSize d m rest hd pre [] [] [] 0 hpre
  refine ⟨h1, fun b hb x hx => ?_⟩
  rcases h2 b hb x hx with ⟨b0, hb0, _⟩ | h | h
  · cases hb0
  · cases h
  · exact h

/-- Witness for the amended C2: one valid document, then an empty one,
then another valid document; the run aborts with the missing-fields error
of the empty document. -/
theorem validation_error_aborts_run_witness :
    (run_and_index
      [{ source := some "s", url := some "u", content := some "c" }, ({} : PyDoc),
       { source := some "s", url := some "v", content := some "c" }] 500 "T").outcome =
      Except.error ["source", "url", "content"] :=
  (validation_error_aborts_run
    [{ source := some "s", url := some "u", content := some "c" }] {}
    [{ source := some "s", url := some "v", content := some "c" }] 500 "T"
    ["source", "url", "content"] (by decide) (by decide)).1

/-- A field is truthy exactly when it holds a nonempty string. -/
theorem pyFalsy_eq_false_iff (o : Option String) :
    pyFalsy o = false ↔ ∃ s, o = some s ∧ s ≠ "" := by
  cases o with
  | none => simp [pyFalsy]
  | some s => simp [pyFalsy]

/-- A document of valid shape has a truthy dedup identifier (its url is
truthy, and the id is only used when itself truthy). -/
theorem docKey_truthy (c : PyDoc) (hc : validShape c) :
    ∃ s, docKey c = some s ∧ s ≠ "" := by
  obtain ⟨-, hu, -⟩ := hc
  unfold docKey
  by_cases hid : pyFalsy c.id = true
  · rw [if_pos hid]
    exact (pyFalsy_eq_false_iff c.url).mp hu
  · rw [if_neg hid]
    refine (pyFalsy_eq_false_iff c.id).mp ?_
    revert hid
    cases pyFalsy c.id <;> simp

/-- Dedup invariant of the run loop.  Invariants carried: the identifiers
of the documents already emitted (flushed batches plus current batch) are
pairwise distinct; every emitted document has a truthy identifier recorded
in seen_ids; and every identifier in seen_ids belongs to an emitted
document.  Conclusions for a run that completes without a validation
error: identifiers across all submitted batches stay pairwise distinct,
emitted documents persist into the final batch list, and every incoming
document's identifier appears among the submitted identifiers. -/
theorem runLoop_dedup (now : String) (bs : Nat) :
    ∀ docs batch seen acc total n,
      (runLoop now bs docs batch seen acc total).outcome = .ok n →
      ((acc.flatten ++ batch).map docKey).Nodup →
      (∀ x ∈ acc.flatten ++ batch, ∃ s, docKey x = some s ∧ s ≠ "" ∧ s ∈ seen) →
      (∀ s ∈ seen, some s ∈ (acc.flatten ++ batch).map docKey) →
      ((runLoop now bs docs batch seen acc total).batches.flatten.map docKey).Nodup ∧
      (∀ x ∈ acc.flatten ++ batch,
        x ∈ (runLoop now bs docs batch seen acc total).batches.flatten) ∧
      (∀ d' ∈ docs,
        docKey d' ∈ (runLoop now bs docs batch seen acc total).batches.flatten.map docKey) := by
  intro docs
  induction docs with
  | nil =>
    intro batch seen acc total n _ i1 _ _
    rw [runLoop_nil]
    by_cases he : batch.isEmpty
    · rw [if_pos he]
      rw [List.isEmpty_iff] at he
      subst he
      refine ⟨by simpa using i1, ?_, fun d' hd' => absurd hd' (List.not_mem_nil d')⟩
      intro x hx
      simpa using hx
    · rw [if_neg he]
      refine ⟨?_, ?_, fun d' hd' => absurd hd' (List.not_mem_nil d')⟩
      · simpa using i1
      · intro x hx
        simpa using hx
  | cons d rest ih =>
    intro batch seen acc total n hout i1 i2 i3
    cases hv : validate_doc_shape now d with
    | error m =>
      rw [runLoop_cons_error now bs d rest batch seen acc total m hv] at hout
      exact Except.noConfusion hout
    | ok clean =>
      have hcdef : clean = applyDefaults d now := ((validate_ok_iff d now clean).mp hv).2
      have hkeq : docKey clean = docKey d := by rw [hcdef, docKey_applyDefaults]
      obtain ⟨s, hks, hsne⟩ := docKey_truthy clean (validate_ok_validShape d now clean hv)
      have hkt : (!(pyFalsy (docKey clean))) = true := by
        rw [hks]
        simp [pyFalsy, hsne]
      have hgetD : (docKey clean).getD "" = s := by rw [hks]; rfl
      by_cases hdup : (!(pyFalsy (docKey clean)) && seen.contains ((docKey clean).getD "")) = true
      · -- duplicate identifier: the document is skipped
        rw [runLoop_cons_dup now bs d rest batch seen acc total clean hv hdup] at hout ⊢
        obtain ⟨c1, c2, c3⟩ := ih batch seen acc total n hout i1 i2 i3
        refine ⟨c1, c2, fun d' hd' => ?_⟩
        rcases List.mem_cons.mp hd' with h | h
        · subst h
          have hsin : s ∈ seen := by
            rw [hkt, hgetD] at hdup
            simpa using hdup
          have := i3 s hsin
          obtain ⟨x, hxm, hxk⟩ := List.mem_map.mp this
          rw [← hkeq, hks, ← hxk]
          exact List.mem_map_of_mem docKey (c2 x hxm)
        · exact c3 d' h
      · -- fresh identifier: the document is appended (and maybe flushed)
        have hcont : seen.contains s = false := by
          rw [hkt, hgetD] at hdup
          revert hdup
          cases seen.contains s <;> simp
        have hsnotin : s ∉ seen := by
          intro hmem
          simp [List.elem_eq_mem] at hcont
          exact hcont hmem
        have hnotemit : (docKey clean) ∉ (acc.flatten ++ batch).map docKey := by
          intro hmem
          obtain ⟨x, hxm, hxk⟩ := List.mem_map.mp hmem
          obtain ⟨s', hx1, _, hx3⟩ := i2 x hxm
          rw [hx1, hks] at hxk
          injection hxk with hss
          rw [hss] at hx3
          exact hsnotin hx3
        have i1' : (((acc.flatten ++ batch) ++ [clean]).map docKey).Nodup := by
          rw [List.map_append]
          rw [List.nodup_append]
          refine ⟨i1, by simp, ?_⟩
          intro a ha hb
          simp only [List.map_cons, List.map_nil, List.mem_cons, List.not_mem_nil,
            or_false] at hb
          rw [hb] at ha
          exact hnotemit ha
        have i2' : ∀ x ∈ (acc.flatten ++ batch) ++ [clean],
            ∃ s', docKey x = some s' ∧ s' ≠ "" ∧ s' ∈ s :: seen := by
          intro x hx
          rcases List.mem_append.mp hx with h | h
          · obtain ⟨s', h1, h2, h3⟩ := i2 x h
            exact ⟨s', h1, h2, List.mem_cons_of_mem s h3⟩
          · rw [List.mem_singleton.mp h]
            exact ⟨s, hks, hsne, List.mem_cons_self s seen⟩
        have i3' : ∀ s' ∈ s :: seen,
            some s' ∈ ((acc.flatten ++ batch) ++ [clean]).map docKey := by
          intro s' hs'
          rcases List.mem_cons.mp hs' with h | h
          · subst h
            rw [← hks]
            exact List.mem_map_of_mem docKey (List.mem_append_right _ (List.mem_singleton_self clean))
          · have := i3 s' h
            rw [List.map_append]
            exact List.mem_append_left _ this
        by_cases hfl : bs ≤ (batch ++ [clean]).length
        · rw [runLoop_cons_flush now bs d rest batch seen acc total clean hv hdup hfl] at hout ⊢
          rw [if_pos hkt] at hout ⊢
          rw [hgetD] at hout ⊢
          have eflush : ((acc ++ [batch ++ [clean]]).flatten ++ ([] : List PyDoc)) =
              (acc.flatten ++ batch) ++ [clean] := by simp
          obtain ⟨c1, c2, c3⟩ := ih [] (s :: seen) (acc ++ [batch ++ [clean]])
            (total + (batch ++ [clean]).length) n hout
            (by rw [eflush]; exact i1') (by rw [eflush]; exact i2') (by rw [eflush]; exact i3')
          rw [eflush] at c2
          refine ⟨c1, ?_, fun d' hd' => ?_⟩
          · intro x hx
            exact c2 x (List.mem_append_left _ hx)
          · rcases List.mem_cons.mp hd' with h | h
            · subst h
              rw [← hkeq]
              have hcl : clean ∈ (runLoop now bs rest [] (s :: seen)
                  (acc ++ [batch ++ [clean]]) (total + (batch ++ [clean]).length)).batches.flatten :=
                c2 clean (List.mem_append_right _ (List.mem_singleton_self clean))
              exact List.mem_map_of_mem docKey hcl
            · exact c3 d' h
        · rw [runLoop_cons_push now bs d rest batch seen acc total clean hv hdup hfl] at hout ⊢
          rw [if_pos hkt] at hout ⊢
          rw [hgetD] at hout ⊢
          have epush : (acc.flatten ++ (batch ++ [clean])) =
              (acc.flatten ++ batch) ++ [clean] := by simp
          obtain ⟨c1, c2, c3⟩ := ih (batch ++ [clean]) (s :: seen) acc total n hout
            (by rw [epush]; exact i1') (by rw [epush]; exact i2') (by rw [epush]; exact i3')
          rw [epush] at c2
          refine ⟨c1, ?_, fun d' hd' => ?_⟩
          · intro x hx
            exact c2 x (List.mem_append_left _ hx)
          · rcases List.mem_cons.mp hd' with h | h
            · subst h
              rw [← hkeq]
              have hcl : clean ∈ (runLoop now bs rest (batch ++ [clean]) (s :: seen)
                  acc total).batches.flatten :=
                c2 clean (List.mem_append_right _ (List.mem_singleton_self clean))
              exact List.mem_map_of_mem docKey hcl
            · exact c3 d' h

/-- C4: dedup within a run is run-scoped, not batch-scoped.  For a
run_and_index call that completes (outcome is a success count), the
identifiers of the documents across ALL batches submitted during the run
are pairwise distinct — two valid input documents sharing an identifier
can therefore never both be submitted, regardless of batch boundaries —
and every input document's identifier appears in the submitted batches
exactly once (second and later occurrences are dropped silently rather
than erroring: the run still completes with .ok). -/
theorem run_and_index_dedup_run_scoped (docs : List PyDoc) (batchSize : Nat) (now : String)
    (n : Nat) (hok : (run_and_index docs batchSize now).outcome = .ok n) :
    ((run_and_index docs batchSize now).batches.flatten.map docKey).Nodup ∧
    ∀ d ∈ docs,
      @List.count (Option String) instBEqOfDecidableEq (docKey d)
        ((run_and_index docs batchSize now).batches.flatten.map docKey) = 1 := by
  obtain ⟨c1, _, c3⟩ := runLoop_dedup now batchSize docs [] [] [] 0 n hok
    (by simp) (by intro x hx; simp at hx) (by intro s hs; simp at hs)
  exact ⟨c1, fun d hd => List.count_eq_one_of_mem c1 (c3 d hd)⟩

/-- Witness for C4 at concrete documents with batch size 1: two documents
share the url-derived identifier and fall on opposite sides of a batch
flush; the run completes with success count 2, the duplicate is dropped,
and the shared identifier occurs exactly once across the submitted
batches. -/
theorem run_and_index_dedup_run_scoped_witness :
    (run_and_index
      [{ source := some "s", url := some "u", content := some "c", title := some "first" },
       { source := some "s", url := some "u", content := some "c", title := some "second" },
       { source := some "s", url := some "v", content := some "c" }] 1 "T").outcome =
      Except.ok 2 ∧
    @List.count (Option String) instBEqOfDecidableEq
      (docKey { source := some "s", url := some "u", content := some "c",
                title := some "second" })
      ((run_and_index
        [{ source := some "s", url := some "u", content := some "c", title := some "first" },
         { source := some "s", url := some "u", content := some "c", title := some "second" },
         { source := some "s", url := some "v", content := some "c" }] 1 "T").batches.flatten.map
          docKey) = 1 := by
  refine ⟨by decide, ?_⟩
  have h := (run_and_index_dedup_run_scoped
    [{ source := some "s", url := some "u", content := some "c", title := some "first" },
     { source := some "s", url := some "u", content := some "c", title := some "second" },
     { source := some "s", url := some "v", content := some "c" }] 1 "T" 2 (by decide)).2
  exact h _ (by decide)

/-! ## Bundestag backfill normalization
(src/scripts/ingest_bundestag_backfill.py)

normalize_for_index maps a record produced by DIPClient (keys id, titel,
datum, text, optionally pdf_url) to the index shape.  Its
publication_date expression is, verbatim from the source:
datum if datum.endswith("Z") else (datum + "T00:00:00Z" if len(datum) == 10
else datum), with datum = d.get("datum") or "". -/

/-- A normalized DIP record as the backfill script receives it; id is
accessed unconditionally in the source, the rest through .get. -/
structure BTRaw where
  id : String
  titel : Option String
  datum : Option String
  text : Option String
  pdf_url : Option String

/-- The publication_date expression of normalize_for_index. -/
def pubDateNorm (datum : String) : String :=
  if pyEndsWith datum "Z" then datum
  else if datum.length = 10 then datum ++ "T00:00:00Z"
  else datum

/-- normalize_for_index of the backfill script (metadata starts empty; the
caller sets document_type afterwards). -/
def normalize_for_index (d : BTRaw) : PyDoc :=
  { id := some d.id
    title := some (d.titel.getD "")
    source := some "bundestag"
    source_name := some "German Bundestag"
    publication_date := some (pubDateNorm (d.datum.getD ""))
    url := some (if pyFalsy d.pdf_url then "https://dip.bundestag.de/vorgang/" ++ d.id
      else d.pdf_url.getD "")
    content := some (d.text.getD "")
    language := some "de"
    ingested_at := none
    metadata_document_type := none }

/-- C6 counterexample: a timezone-naive datetime string passes through
normalize_for_index verbatim.  The input datum 2025-01-02T12:00:00 does
not end in Z and has length 19, so the emitted publication_date is the
naive datetime itself — not an absolute UTC instant string — refuting the
claim that no non-UTC or timezone-naive datetime string is emitted. -/
theorem publication_date_naive_counterexample :
    (normalize_for_index
      { id := "1", titel := none, datum := some "2025-01-02T12:00:00",
        text := some "t", pdf_url := none }).publication_date =
      some "2025-01-02T12:00:00" ∧
    pyEndsWith "2025-01-02T12:00:00" "Z" = false := by decide

/-- C6 amended: normalize_for_index normalizes only the date-only shape.
The emitted publication_date is pubDateNorm of the datum (empty string
when absent); a 10-character input not ending in Z (in particular a
YYYY-MM-DD date) is expanded to midnight UTC, an input already ending in Z
passes through, and every other input (for example a timezone-naive
datetime) passes through verbatim. -/
theorem publication_date_normalization (d : BTRaw) :
    (normalize_for_index d).publication_date = some (pubDateNorm (d.datum.getD "")) ∧
    ∀ s : String,
      (pyEndsWith s "Z" = true → pubDateNorm s = s) ∧
      (pyEndsWith s "Z" = false → s.length = 10 → pubDateNorm s = s ++ "T00:00:00Z") ∧
      (pyEndsWith s "Z" = false → s.length ≠ 10 → pubDateNorm s = s) := by
  refine ⟨rfl, fun s => ⟨?_, ?_, ?_⟩⟩
  · intro h
    unfold pubDateNorm
    rw [if_pos h]
  · intro h h10
    unfold pubDateNorm
    rw [if_neg (by simp [h]), if_pos h10]
  · intro h h10
    unfold pubDateNorm
    rw [if_neg (by simp [h]), if_neg h10]

/-- Witness for the amended C6: the date-only input 2025-08-01 is expanded
to midnight UTC. -/
theorem publication_date_normalization_witness :
    pubDateNorm "2025-08-01" = "2025-08-01T00:00:00Z" := by
  have h := ((publication_date_normalization
    { id := "1", titel := none, datum := some "2025-08-01",
      text := some "t", pdf_url := none }).2 "2025-08-01").2.1 (by decide) (by decide)
  exact h.trans (by decide)

/-! ## EU identifier parsing (src/app/datasources/eu_api.py)

parse_identifier splits a hyphen-delimited identifier and derives kind,
term, year, number, date without ever raising. -/

/-- CPython "-".join. -/
def joinDash : List String → String
  | [] => ""
  | [x] => x
  | x :: rest => x ++ "-" ++ joinDash rest

/-- The record parse_identifier returns (a dict with five keys in the
source). -/
structure ParsedId where
  kind : Option String
  term : Option String
  year : Option String
  number : Option String
  date : Option String
  deriving DecidableEq

/-- parse_identifier from eu_api.py: split on hyphens; fewer than two
segments gives the all-null record; the CRE kind joins segments 3 to 5 as
a date when present; other kinds read year and number from segments 3 and
4 when present. -/
def parse_identifier (identifier : String) : ParsedId :=
  let parts := pySplit '-' identifier
  if parts.length < 2 then ⟨none, none, none, none, none⟩
  else
    let kind := parts.getD 0 ""
    let term := parts.getD 1 ""
    if kind = "CRE" then
      let date := if 5 ≤ parts.length then some (joinDash ((parts.drop 2).take 3)) else none
      ⟨some kind, some term, none, none, date⟩
    else
      ⟨some kind, some term, parts[2]?, parts[3]?, none⟩

/-- Joining the three segments after the kind and term gives the date
text segment3-segment4-segment5. -/
theorem joinDash_drop_take (l : List String) (h : 5 ≤ l.length) :
    joinDash ((l.drop 2).take 3) =
      (l.getD 2 "") ++ "-" ++ ((l.getD 3 "") ++ "-" ++ (l.getD 4 "")) := by
  rcases l with _ | ⟨a, _ | ⟨b, _ | ⟨c, _ | ⟨d, _ | ⟨e, r⟩⟩⟩⟩⟩ <;> simp at h
  simp [joinDash]

/-- C9: identifier parsing is total and shaped per kind.  The Lean
embedding is a total function (the Python code indexes only after length
checks, so it never raises); an identifier with fewer than two
hyphen-delimited segments yields the all-null record; a CRE identifier
takes its date by joining segments 3 to 5 when at least five segments
exist (null otherwise) with year and number null; any other kind takes
year and number from segments 3 and 4 when present (null otherwise) with
date null. -/
theorem parse_identifier_total_spec (s : String) :
    ((pySplit '-' s).length < 2 → parse_identifier s = ⟨none, none, none, none, none⟩) ∧
    (2 ≤ (pySplit '-' s).length → (pySplit '-' s).getD 0 "" = "CRE" →
      parse_identifier s = ⟨some "CRE", some ((pySplit '-' s).getD 1 ""), none, none,
        if 5 ≤ (pySplit '-' s).length then
          some (((pySplit '-' s).getD 2 "") ++ "-" ++ (((pySplit '-' s).getD 3 "") ++ "-" ++
            ((pySplit '-' s).getD 4 ""))) else none⟩) ∧
    (2 ≤ (pySplit '-' s).length → (pySplit '-' s).getD 0 "" ≠ "CRE" →
      parse_identifier s = ⟨some ((pySplit '-' s).getD 0 ""), some ((pySplit '-' s).getD 1 ""),
        (pySplit '-' s)[2]?, (pySplit '-' s)[3]?, none⟩) := by
  refine ⟨?_, ?_, ?_⟩
  · intro h
    unfold parse_identifier
    rw [if_pos h]
  · intro h hk
    unfold parse_identifier
    rw [if_neg (by omega), if_pos hk, hk]
    by_cases h5 : 5 ≤ (pySplit '-' s).length
    · rw [if_pos h5, if_pos h5, joinDash_drop_take _ h5]
    · rw [if_neg h5, if_neg h5]
  · intro h hk
    unfold parse_identifier
    rw [if_neg (by omega), if_neg hk]

/-- Witness for C9 at three concrete identifiers: a debate-record
identifier, a report identifier, and a malformed single-segment
identifier. -/
theorem parse_identifier_total_spec_witness :
    parse_identifier "CRE-10-2025-01-20" =
      ⟨some "CRE", some "10", none, none, some "2025-01-20"⟩ ∧
    parse_identifier "A-10-2024-0001" =
      ⟨some "A", some "10", some "2024", some "0001", none⟩ ∧
    parse_identifier "broken" = ⟨none, none, none, none, none⟩ := by
  refine ⟨?_, ?_, ?_⟩
  · exact ((parse_identifier_total_spec "CRE-10-2025-01-20").2.1 (by decide)
      (by decide)).trans (by decide)
  · exact ((parse_identifier_total_spec "A-10-2024-0001").2.2 (by decide)
      (by decide)).trans (by decide)
  · exact (parse_identifier_total_spec "broken").1 (by decide)

/-! ## Search query construction (src/app/services/search_service.py)

search_documents builds one request body dict; the embedding below mirrors
lines 132 to 205 of the source clause by clause.  JSON values are the
inductive J; a JSON number is kept as an exact fraction (numerator and
denominator) so that the one non-integer literal of the source, the fuzzy
boost 0.2, is represented exactly as 2/10 without any normalization. -/

/-- A JSON value.  Object fields keep their insertion order, matching the
Python dict. -/
inductive J where
  | s (v : String)
  | n (num : Int) (den : Nat)
  | b (v : Bool)
  | arr (xs : List J)
  | obj (fs : List (String × J))

/-- Field lookup in a JSON object field list. -/
def lookupField : List (String × J) → String → Option J
  | [], _ => none
  | (k', v) :: rest, k => if k' = k then some v else lookupField rest k

/-- Field lookup in a JSON value. -/
def jGet : J → String → Option J
  | J.obj fs, k => lookupField fs k
  | _, _ => none

/-- Path lookup in a JSON value. -/
def jPath : J → List String → Option J
  | j, [] => some j
  | j, k :: ks =>
    match jGet j k with
    | some v => jPath v ks
    | none => none

/-- The four sub-clauses of the should list built when free text is
present: cross-field AND multi_match (boost 3), title phrase (boost 4,
slop 2), content phrase (boost 2, slop 2), fuzzy best_fields OR fallback
(boost 0.2). -/
def shouldQueries (query : String) : List J :=
  [J.obj [("multi_match", J.obj [("query", J.s query),
      ("fields", J.arr [J.s "title^2", J.s "content"]),
      ("type", J.s "cross_fields"), ("operator", J.s "and"), ("boost", J.n 3 1)])],
   J.obj [("match_phrase", J.obj [("title", J.obj [("query", J.s query),
      ("boost", J.n 4 1), ("slop", J.n 2 1)])])],
   J.obj [("match_phrase", J.obj [("content", J.obj [("query", J.s query),
      ("boost", J.n 2 1), ("slop", J.n 2 1)])])],
   J.obj [("multi_match", J.obj [("query", J.s query),
      ("fields", J.arr [J.s "title^2", J.s "content"]),
      ("type", J.s "best_fields"), ("operator", J.s "or"),
      ("fuzziness", J.s "AUTO"), ("fuzzy_transpositions", J.b true),
      ("boost", J.n 2 10)])]]

/-- The must list: for truthy free text, one bool clause whose should list
is shouldQueries with minimum_should_match 1; empty otherwise. -/
def mustClauses (query : Option String) : List J :=
  if pyFalsy query then []
  else [J.obj [("bool", J.obj [("should", J.arr (shouldQueries (query.getD ""))),
    ("minimum_should_match", J.n 1 1)])]]

/-- The filter list: a source terms filter when sources is nonempty, a
metadata.document_type terms filter when doc_types is nonempty, and a
publication_date range filter (gte and lte added independently) when a
date bound is truthy. -/
def filterClauses (sources docTypes : List String) (dateFrom dateTo : Option String) : List J :=
  (if sources.isEmpty then []
   else [J.obj [("terms", J.obj [("source", J.arr (sources.map J.s))])]])
  ++ (if docTypes.isEmpty then []
      else [J.obj [("terms", J.obj [("metadata.document_type", J.arr (docTypes.map J.s))])]])
  ++ (if pyFalsy dateFrom && pyFalsy dateTo then []
      else [J.obj [("range", J.obj [("publication_date", J.obj (
          (if pyFalsy dateFrom then [] else [("gte", J.s (dateFrom.getD ""))]) ++
          (if pyFalsy dateTo then [] else [("lte", J.s (dateTo.getD ""))])))])]])

/-- The highlight directive added when free text is truthy. -/
def highlightSpec : J :=
  J.obj [("pre_tags", J.arr [J.s "<mark>"]), ("post_tags", J.arr [J.s "</mark>"]),
    ("require_field_match", J.b false),
    ("fields", J.obj [
      ("content", J.obj [("fragment_size", J.n 180 1), ("number_of_fragments", J.n 1 1),
        ("no_match_size", J.n 180 1), ("order", J.s "score")]),
      ("title", J.obj [("number_of_fragments", J.n 0 1)])])]

/-- The request body search_documents posts to the store: bool query with
must (or match_all when no text) and filter, from = (page - 1) * size,
size, the two terms aggregations, the _source projection, and the
highlight directive only when free text is truthy. -/
def buildSearchBody (query : Option String) (sources docTypes : List String)
    (dateFrom dateTo : Option String) (page size : Int) : J :=
  let must := mustClauses query
  J.obj ([
    ("query", J.obj [("bool", J.obj [
      ("must", J.arr (if must.isEmpty then [J.obj [("match_all", J.obj [])]] else must)),
      ("filter", J.arr (filterClauses sources docTypes dateFrom dateTo))])]),
    ("from", J.n ((page - 1) * size) 1),
    ("size", J.n size 1),
    ("aggs", J.obj [
      ("sources", J.obj [("terms", J.obj [("field", J.s "source")])]),
      ("doc_types", J.obj [("terms", J.obj [("field", J.s "metadata.document_type")])])]),
    ("_source", J.arr (["id", "title", "source", "publication_date", "url", "content",
      "metadata.document_type"].map J.s))]
    ++ (if pyFalsy query then [] else [("highlight", highlightSpec)]))

/-- C5: query construction for text Wasserstoff, sources [bundestag], no
doc types, no date bounds, page 1, size 10.  The filter list is exactly
the singleton source terms filter for [bundestag] — in particular it
contains no publication_date range filter — the must list is exactly one
bool/should clause with minimum_should_match 1 whose should list starts
with the cross-field multi_match, the title phrase and the content phrase
sub-clauses, the offset (from) is 0 and the size is 10. -/
theorem search_body_wasserstoff :
    jPath (buildSearchBody (some "Wasserstoff") ["bundestag"] [] none none 1 10)
        ["query", "bool", "filter"] =
      some (J.arr [J.obj [("terms", J.obj [("source", J.arr [J.s "bundestag"])])]]) ∧
    jPath (buildSearchBody (some "Wasserstoff") ["bundestag"] [] none none 1 10)
        ["query", "bool", "must"] =
      some (J.arr [J.obj [("bool", J.obj [
        ("should", J.arr (shouldQueries "Wasserstoff")),
        ("minimum_should_match", J.n 1 1)])]]) ∧
    (shouldQueries "Wasserstoff").take 3 =
      [J.obj [("multi_match", J.obj [("query", J.s "Wasserstoff"),
          ("fields", J.arr [J.s "title^2", J.s "content"]),
          ("type", J.s "cross_fields"), ("operator", J.s "and"), ("boost", J.n 3 1)])],
       J.obj [("match_phrase", J.obj [("title", J.obj [("query", J.s "Wasserstoff"),
          ("boost", J.n 4 1), ("slop", J.n 2 1)])])],
       J.obj [("match_phrase", J.obj [("content", J.obj [("query", J.s "Wasserstoff"),
          ("boost", J.n 2 1), ("slop", J.n 2 1)])])]] ∧
    jGet (buildSearchBody (some "Wasserstoff") ["bundestag"] [] none none 1 10) "from" =
      some (J.n 0 1) ∧
    jGet (buildSearchBody (some "Wasserstoff") ["bundestag"] [] none none 1 10) "size" =
      some (J.n 10 1) :=
  ⟨rfl, rfl, rfl, rfl, rfl⟩

/-! ## Result shaping (src/app/services/search_service.py, hit loop)

For each raw hit the service reads _source and highlight and builds the
output hit; the snippet preference chain is embedded in shapeSnippet. -/

/-- One raw hit as the shaping loop reads it: the store-level _id, the
_source fields, and the highlight fragment lists (an absent highlight
entry is the empty list, matching hl.get(...) or []). -/
structure RawHit where
  hitId : Option String
  srcId : Option String
  srcTitle : Option String
  srcSource : Option String
  srcPublicationDate : Option String
  srcUrl : Option String
  srcContent : Option String
  hlContent : List String
  hlTitle : List String

/-- One shaped hit of the results envelope. -/
structure HitOut where
  id : Option String
  title : Option String
  source : Option String
  publication_date : Option String
  url : Option String
  snippet : Option String
  deriving DecidableEq

/-- The snippet preference chain: first highlighted content fragment,
else first highlighted title fragment, else for truthy stored content the
plain excerpt cut at 300 code points with a trailing ellipsis exactly when
longer than 300, else no snippet. -/
def shapeSnippet (contentFrags titleFrags : List String) (content : Option String) :
    Option String :=
  match contentFrags with
  | f :: _ => some f
  | [] =>
    match titleFrags with
    | f :: _ => some f
    | [] =>
      match content with
      | some c =>
        if c = "" then none
        else some (if 300 < c.length then c.take 300 ++ "…" else c)
      | none => none

/-- The per-hit shaping of search_documents. -/
def shapeHit (h : RawHit) : HitOut :=
  { id := if pyFalsy h.srcId then h.hitId else h.srcId
    title := h.srcTitle
    source := h.srcSource
    publication_date := h.srcPublicationDate
    url := h.srcUrl
    snippet := shapeSnippet h.hlContent h.hlTitle h.srcContent }

/-- C8: the snippet fallback chain.  For every raw hit: the snippet is the
first highlighted content fragment when one exists; else the first
highlighted title fragment when one exists; else, for nonempty stored
content, the content cut at the 300 code-point budget with a trailing
ellipsis exactly when the content exceeds the budget (the full content
otherwise); else null. -/
theorem snippet_fallback_chain (h : RawHit) :
    (∀ f rest, h.hlContent = f :: rest → (shapeHit h).snippet = some f) ∧
    (h.hlContent = [] → ∀ f rest, h.hlTitle = f :: rest → (shapeHit h).snippet = some f) ∧
    (h.hlContent = [] → h.hlTitle = [] → ∀ c, h.srcContent = some c → c ≠ "" →
      (300 < c.length → (shapeHit h).snippet = some (c.take 300 ++ "…")) ∧
      (c.length ≤ 300 → (shapeHit h).snippet = some c)) ∧
    (h.hlContent = [] → h.hlTitle = [] → (h.srcContent = none ∨ h.srcContent = some "") →
      (shapeHit h).snippet = none) := by
  refine ⟨?_, ?_, ?_, ?_⟩
  · intro f rest hf
    show shapeSnippet h.hlContent h.hlTitle h.srcContent = some f
    rw [hf]
    rfl
  · intro hc f rest hf
    show shapeSnippet h.hlContent h.hlTitle h.srcContent = some f
    rw [hc, hf]
    rfl
  · intro hc ht c hsc hne
    constructor
    · intro hlen
      show shapeSnippet h.hlContent h.hlTitle h.srcContent = some (c.take 300 ++ "…")
      rw [hc, ht, hsc]
      show (if c = "" then none
        else some (if 300 < c.length then c.take 300 ++ "…" else c)) = some (c.take 300 ++ "…")
      rw [if_neg hne, if_pos hlen]
    · intro hlen
      show shapeSnippet h.hlContent h.hlTitle h.srcContent = some c
      rw [hc, ht, hsc]
      show (if c = "" then none
        else some (if 300 < c.length then c.take 300 ++ "…" else c)) = some c
      rw [if_neg hne, if_neg (by omega)]
  · intro hc ht hopt
    rcases hopt with hn | hn
    · show shapeSnippet h.hlContent h.hlTitle h.srcContent = none
      rw [hc, ht, hn]
      rfl
    · show shapeSnippet h.hlContent h.hlTitle h.srcContent = none
      rw [hc, ht, hn]
      rfl

/-- Witness for C8: a hit with no highlight fragments and 301 characters
of stored content gets a snippet of the first 300 characters with a
trailing ellipsis; applying the theorem chain at concrete input. -/
theorem snippet_fallback_chain_witness :
    (shapeHit ⟨none, none, none, none, none, none,
      some (String.mk (List.replicate 301 'a')), [], []⟩).snippet =
      some ((String.mk (List.replicate 301 'a')).take 300 ++ "…") := by
  have e1 : (String.mk (List.replicate 301 'a')).length = 301 := by
    show (List.replicate 301 'a').length = 301
    rw [List.length_replicate]
  have hne : String.mk (List.replicate 301 'a') ≠ "" := by
    intro hcon
    have hl : (String.mk (List.replicate 301 'a')).length = ("" : String).length := by
      rw [hcon]
    rw [e1] at hl
    exact absurd hl (by decide)
  have hlen : 300 < (String.mk (List.replicate 301 'a')).length := by
    rw [e1]
    omega
  exact ((snippet_fallback_chain ⟨none, none, none, none, none, none,
    some (String.mk (List.replicate 301 'a')), [], []⟩).2.2.1 rfl rfl
    (String.mk (List.replicate 301 'a')) rfl hne).1 hlen

/-! ## Store id assignment (src/app/services/search_service.py,
_doc_id and index_documents)

_doc_id(url) is hashlib.sha1(url.encode("utf-8")).hexdigest().  SHA-1 is
implemented below from its standard definition over byte lists, with
32-bit words as Nat reduced modulo 2 ^ 32; the two standard test vectors
are proved below by evaluation.  index_documents iterates the caller's
document dicts, assigns d["id"] = _doc_id(d["url"]) in place when id is
falsy and url truthy, and emits one bulk action per document whose _id is
d.get("id") after that possible assignment.  The mutation is modelled by
returning the updated document list (the caller's dicts after the call)
alongside the action list. -/

/-- Reduce to a 32-bit word. -/
def u32 (x : Nat) : Nat := x % 4294967296

/-- 32-bit left rotation. -/
def rotl32 (s x : Nat) : Nat := u32 ((x <<< s) + (x >>> (32 - s)))

/-- UTF-8 encoding of one code point, as byte values. -/
def utf8EncodeCharNat (c : Char) : List Nat :=
  let n := c.toNat
  if n < 128 then [n]
  else if n < 2048 then [192 + n / 64, 128 + n % 64]
  else if n < 65536 then [224 + n / 4096, 128 + (n / 64) % 64, 128 + n % 64]
  else [240 + n / 262144, 128 + (n / 4096) % 64, 128 + (n / 64) % 64, 128 + n % 64]

/-- str.encode("utf-8") as a byte list. -/
def utf8Encode (s : String) : List Nat :=
  s.data.foldr (fun c acc => utf8EncodeCharNat c ++ acc) []

/-- Big-endian bytes of a number, fixed width. -/
def toBytesBE : Nat → Nat → List Nat
  | 0, _ => []
  | m + 1, x => toBytesBE m (x >>> 8) ++ [x % 256]

/-- SHA-1 padding: 0x80, zeros to 56 mod 64, 64-bit big-endian bit
length. -/
def sha1Pad (msg : List Nat) : List Nat :=
  msg ++ [128] ++ List.replicate ((119 - msg.length % 64) % 64) 0 ++ toBytesBE 8 (8 * msg.length)

/-- Big-endian 32-bit words of a 64-byte chunk. -/
def chunkWords : List Nat → List Nat
  | b0 :: b1 :: b2 :: b3 :: rest => (((b0 * 256 + b1) * 256 + b2) * 256 + b3) :: chunkWords rest
  | _ => []

/-- Split into 64-byte chunks (fuel is the list length, more than
enough). -/
def chunksGo : Nat → List Nat → List (List Nat)
  | 0, _ => []
  | _ + 1, [] => []
  | f + 1, l => l.take 64 :: chunksGo f (l.drop 64)

/-- The 64-byte chunks of a padded message. -/
def chunksOf64 (l : List Nat) : List (List Nat) := chunksGo l.length l

/-- Message-schedule expansion from 16 to 80 words. -/
def expandWords (w : List Nat) : Nat → List Nat
  | 0 => w
  | f + 1 =>
    let i := w.length
    let x := (w.getD (i - 3) 0) ^^^ (w.getD (i - 8) 0) ^^^ (w.getD (i - 14) 0) ^^^
      (w.getD (i - 16) 0)
    expandWords (w ++ [rotl32 1 x]) f

/-- The SHA-1 round function per round group. -/
def sha1F (t b c d : Nat) : Nat :=
  if t < 20 then (b &&& c) ||| ((b ^^^ 4294967295) &&& d)
  else if t < 40 then b ^^^ c ^^^ d
  else if t < 60 then (b &&& c) ||| (b &&& d) ||| (c &&& d)
  else b ^^^ c ^^^ d

/-- The SHA-1 round constants. -/
def sha1K (t : Nat) : Nat :=
  if t < 20 then 1518500249
  else if t < 40 then 1859775393
  else if t < 60 then 2400959708
  else 3395469782

/-- The five-word SHA-1 state. -/
structure H5 where
  h0 : Nat
  h1 : Nat
  h2 : Nat
  h3 : Nat
  h4 : Nat

/-- One SHA-1 round. -/
def sha1Round (w : List Nat) (st : H5) (t : Nat) : H5 :=
  let temp := u32 (rotl32 5 st.h0 + sha1F t st.h1 st.h2 st.h3 + st.h4 + sha1K t + w.getD t 0)
  ⟨temp, st.h0, rotl32 30 st.h1, st.h2, st.h3⟩

/-- Process one 64-byte chunk. -/
def sha1Chunk (hs : H5) (chunk : List Nat) : H5 :=
  let w := expandWords (chunkWords chunk) 64
  let r := (List.range 80).foldl (sha1Round w) hs
  ⟨u32 (hs.h0 + r.h0), u32 (hs.h1 + r.h1), u32 (hs.h2 + r.h2), u32 (hs.h3 + r.h3),
    u32 (hs.h4 + r.h4)⟩

/-- The SHA-1 initialization vector. -/
def sha1Init : H5 := ⟨1732584193, 4023233417, 2562383102, 271733878, 3285377520⟩

/-- Lower-case hex digit. -/
def hexChar : Nat → Char
  | 0 => '0' | 1 => '1' | 2 => '2' | 3 => '3' | 4 => '4' | 5 => '5' | 6 => '6' | 7 => '7'
  | 8 => '8' | 9 => '9' | 10 => 'a' | 11 => 'b' | 12 => 'c' | 13 => 'd' | 14 => 'e'
  | 15 => 'f' | _ => '0'

/-- Eight hex digits of a 32-bit word, most significant first. -/
def toHex8 (x : Nat) : String :=
  String.mk ([7, 6, 5, 4, 3, 2, 1, 0].map (fun i => hexChar ((x >>> (4 * i)) % 16)))

/-- hashlib.sha1(bytes).hexdigest(). -/
def sha1Hex (msg : List Nat) : String :=
  let f := (chunksOf64 (sha1Pad msg)).foldl sha1Chunk sha1Init
  toHex8 f.h0 ++ toHex8 f.h1 ++ toHex8 f.h2 ++ toHex8 f.h3 ++ toHex8 f.h4

/-- _doc_id of search_service.py: the hex SHA-1 digest of the UTF-8
encoded url. -/
def _doc_id (url : String) : String := sha1Hex (utf8Encode url)

set_option maxRecDepth 4000 in
/-- Sanity anchor: the embedded SHA-1 agrees with the standard test vector
for the three-byte message abc. -/
theorem sha1_test_vector_abc :
    sha1Hex (utf8Encode "abc") = "a9993e364706816aba3e25717850c26c9cd0d89d" := by decide

set_option maxRecDepth 4000 in
/-- Sanity anchor: the embedded SHA-1 agrees with the standard test vector
for the empty message. -/
theorem sha1_test_vector_empty :
    sha1Hex (utf8Encode "") = "da39a3ee5e6b4b0d3255bfef95601890afd80709" := by decide

/-- One action of the bulk generator: the store-level _id and the document
submitted as _source. -/
structure BulkAction where
  actId : Option String
  src : PyDoc
  deriving DecidableEq, Inhabited

/-- The in-place id assignment of gen_actions: when d.get("id") is falsy
and d.get("url") truthy, set d["id"] = _doc_id(d["url"]). -/
def assignId (d : PyDoc) : PyDoc :=
  if pyFalsy d.id && !(pyFalsy d.url) then { d with id := some (_doc_id (d.url.getD "")) }
  else d

/-- index_documents: first component is the caller's document list after
the in-place mutations, second the bulk actions submitted (each with _id =
d.get("id") after the possible assignment). -/
def index_documents (docs : List PyDoc) : List PyDoc × List BulkAction :=
  let updated := docs.map assignId
  (updated, updated.map (fun d => ⟨d.id, d⟩))

/-- getD commutes with map at in-range indices. -/
theorem getD_map {α β : Type} [Inhabited α] [Inhabited β] (f : α → β) :
    ∀ (l : List α) (i : Nat), i < l.length →
      (l.map f).getD i default = f (l.getD i default) := by
  intro l
  induction l with
  | nil => intro i hi; simp at hi
  | cons a rest ih =>
    intro i hi
    cases i with
    | zero => rfl
    | succ j =>
      have hj : j < rest.length := by simpa using hi
      show (rest.map f).getD j default = f (rest.getD j default)
      exact ih j hj

/-- C10: index_documents mutates its input.  For every in-range position
of the document list: lengths are preserved; a document that arrives with
a falsy id and a truthy url leaves the call with id = the hex SHA-1 digest
of its UTF-8 encoded url (all other fields untouched), and the bulk action
at that position uses exactly that digest as the store-level _id; a
document that arrives with a truthy id is left unchanged and its action
uses that id.  Since _doc_id is a function of the url alone, the same url
always maps to the same store identifier. -/
theorem index_documents_assigns_url_hash (docs : List PyDoc) (i : Nat)
    (hi : i < docs.length) :
    (index_documents docs).1.length = docs.length ∧
    (index_documents docs).2.length = docs.length ∧
    (pyFalsy (docs.getD i default).id = true → pyFalsy (docs.getD i default).url = false →
      (index_documents docs).1.getD i default =
        { docs.getD i default with id := some (_doc_id ((docs.getD i default).url.getD "")) } ∧
      ((index_documents docs).2.getD i default).actId =
        some (_doc_id ((docs.getD i default).url.getD ""))) ∧
    (pyFalsy (docs.getD i default).id = false →
      (index_documents docs).1.getD i default = docs.getD i default ∧
      ((index_documents docs).2.getD i default).actId = (docs.getD i default).id) := by
  have hlen1 : (index_documents docs).1.length = docs.length := by
    simp [index_documents]
  have hlen2 : (index_documents docs).2.length = docs.length := by
    simp [index_documents]
  have hup : (index_documents docs).1.getD i default = assignId (docs.getD i default) :=
    getD_map assignId docs i hi
  have hact : (index_documents docs).2.getD i default =
      ⟨((index_documents docs).1.getD i default).id, (index_documents docs).1.getD i default⟩ := by
    show ((docs.map assignId).map (fun d => BulkAction.mk d.id d)).getD i default = _
    rw [getD_map (fun d => BulkAction.mk d.id d) (docs.map assignId) i (by simpa using hi)]
    rfl
  refine ⟨hlen1, hlen2, ?_, ?_⟩
  · intro hid hurl
    have hcond : (pyFalsy (docs.getD i default).id &&
        !(pyFalsy (docs.getD i default).url)) = true := by
      rw [hid, hurl]
      rfl
    have hass : assignId (docs.getD i default) =
        { docs.getD i default with id := some (_doc_id ((docs.getD i default).url.getD "")) } := by
      unfold assignId
      rw [if_pos hcond]
    refine ⟨hup.trans hass, ?_⟩
    rw [hact, hup, hass]
  · intro hid
    have hcond : (pyFalsy (docs.getD i default).id &&
        !(pyFalsy (docs.getD i default).url)) = false := by
      rw [hid]
      rfl
    have hass : assignId (docs.getD i default) = docs.getD i default := by
      unfold assignId
      rw [if_neg (by intro h; rw [hcond] at h; exact Bool.noConfusion h)]
    refine ⟨hup.trans hass, ?_⟩
    rw [hact, hup, hass]

/-- Witness for C10 at a concrete two-document list: position 0 (no id,
url u) gets id = _doc_id u in place and as the action _id; position 1
(id x) is left unchanged. -/
theorem index_documents_assigns_url_hash_witness :
    (index_documents
      [{ url := some "u", source := some "s", content := some "c" },
       { id := some "x", url := some "u", source := some "s", content := some "c" }]).1.getD 0
        default =
      { url := some "u", source := some "s", content := some "c",
        id := some (_doc_id "u") } ∧
    (index_documents
      [{ url := some "u", source := some "s", content := some "c" },
       { id := some "x", url := some "u", source := some "s", content := some "c" }]).1.getD 1
        default =
      { id := some "x", url := some "u", source := some "s", content := some "c" } := by
  constructor
  · exact ((index_documents_assigns_url_hash
      [{ url := some "u", source := some "s", content := some "c" },
       { id := some "x", url := some "u", source := some "s", content := some "c" }] 0
      (by decide)).2.2.1 rfl rfl).1
  · exact ((index_documents_assigns_url_hash
      [{ url := some "u", source := some "s", content := some "c" },
       { id := some "x", url := some "u", source := some "s", content := some "c" }] 1
      (by decide)).2.2.2 rfl).1

end PolicyMVP
